import Mathlib

/-!
Verification development for the chrondb Rust bindings
(src/bindings/rust/src/{lib,error,ffi,setup}.rs).

The native engine, the serde_json crate and the filesystem are external to
the crate, so they are modelled as oracles: a `NativeOracle` records what
each native entry point would return, a `parse` parameter stands for
serde_json::from_str, and every function that crosses the native boundary
also returns the list of native calls it performed, in order.  Machine
integers returned by the native side (c_int) are modelled as Int.
-/

/-- JSON values as exchanged with serde_json (serde_json::Value). -/
inductive Json where
  | null : Json
  | bool (b : Bool) : Json
  | num (n : Int) : Json
  | str (s : String) : Json
  | arr (elems : List Json) : Json
  | obj (fields : List (String × Json)) : Json
deriving Repr

/-- The error taxonomy of error.rs (enum ChronDBError). -/
inductive ChronDBError where
  | SetupFailed (msg : String)
  | IsolateCreationFailed
  | OpenFailed (msg : String)
  | CloseFailed
  | NotFound
  | OperationFailed (msg : String)
  | JsonError (msg : String)
deriving DecidableEq, Repr

/-- One call into the native library (the fixed C call surface of ffi.rs),
with the string arguments it was given.  Used to record, per operation,
which native functions ran and in which order. -/
inductive NativeCall where
  | createIsolate
  | tearDownIsolate
  | callOpen (dataPath indexPath : String)
  | callClose (handle : Int)
  | callPut (id doc : String) (branch : Option String)
  | callGet (id : String) (branch : Option String)
  | callListByPfx (p : String) (branch : Option String)
  | callListByTable (t : String) (branch : Option String)
  | callHistory (id : String) (branch : Option String)
  | callQuery (q : String) (branch : Option String)
  | callDelete (id : String) (branch : Option String)
  | callLastError
  | callFreeString (s : String)
deriving DecidableEq, Repr

/-- What the native side would answer on this worker's next operation:
the nullable string results (None models a NULL pointer), the delete
status code, and the pending last-error text (None models NULL). -/
structure NativeOracle where
  putRet : Option String
  getRet : Option String
  deleteRet : Int
  listPfxRet : Option String
  listTableRet : Option String
  historyRet : Option String
  queryRet : Option String
  lastErr : Option String
deriving DecidableEq, Repr

/-- Whether a Rust string contains an embedded NUL byte (what makes
CString::new fail). -/
def hasNulByte (s : String) : Bool := s.data.contains (Char.ofNat 0)

/-- The Display text of std::ffi::NulError, as produced by e.to_string()
in the map_err closures of lib.rs. -/
def nulErrorMsg (s : String) : String :=
  "nul byte found in provided data at position " ++
    toString (s.data.findIdx (fun c => c == Char.ofNat 0))

/-- CString::new: fails exactly on an embedded NUL, with the NulError text. -/
def cStringNew (s : String) : Except String Unit :=
  if hasNulByte s then Except.error (nulErrorMsg s) else Except.ok ()

/-- FfiWorkerState::optional_cstring (lib.rs lines 138-147). -/
def optional_cstring : Option String → Except String Unit
  | some v => cStringNew v
  | none => Except.ok ()

/-- FfiWorkerState::get_last_error (lib.rs lines 120-131): calls
chrondb_last_error; when non-null, copies the text and frees the string. -/
def get_last_error (o : NativeOracle) : Option String × List NativeCall :=
  match o.lastErr with
  | none => (none, [NativeCall.callLastError])
  | some s => (some s, [NativeCall.callLastError, NativeCall.callFreeString s])

/-- FfiWorkerState::last_error_or (lib.rs lines 133-136). -/
def last_error_or (o : NativeOracle) (dflt : String) : ChronDBError × List NativeCall :=
  let r := get_last_error o
  (ChronDBError.OperationFailed (r.fst.getD dflt), r.snd)

/-- FfiWorkerState::parse_string_result (lib.rs lines 156-166): null pointer
is last_error_or "null result"; otherwise the text is copied, the native
string freed, and the copy parsed (the From instance of error.rs turns a
serde_json::Error into JsonError of its text). `parse` stands for
serde_json::from_str. -/
def parse_string_result (o : NativeOracle) (parse : String → Except String Json)
    (res : Option String) : Except ChronDBError Json × List NativeCall :=
  match res with
  | none =>
    let e := last_error_or o "null result"
    (Except.error e.fst, e.snd)
  | some s =>
    match parse s with
    | Except.error e => (Except.error (ChronDBError.JsonError e), [NativeCall.callFreeString s])
    | Except.ok v => (Except.ok v, [NativeCall.callFreeString s])

/-- FfiWorkerState::handle_put (lib.rs lines 168-184). -/
def handle_put (o : NativeOracle) (parse : String → Except String Json)
    (id doc : String) (branch : Option String) :
    Except ChronDBError Json × List NativeCall :=
  match cStringNew id with
  | Except.error e => (Except.error (ChronDBError.OperationFailed e), [])
  | Except.ok _ =>
  match cStringNew doc with
  | Except.error e => (Except.error (ChronDBError.OperationFailed e), [])
  | Except.ok _ =>
  match optional_cstring branch with
  | Except.error e => (Except.error (ChronDBError.OperationFailed e), [])
  | Except.ok _ =>
    let r := parse_string_result o parse o.putRet
    (r.fst, NativeCall.callPut id doc branch :: r.snd)

/-- FfiWorkerState::handle_get (lib.rs lines 186-203): a null result is
NotFound, otherwise parse_string_result. -/
def handle_get (o : NativeOracle) (parse : String → Except String Json)
    (id : String) (branch : Option String) :
    Except ChronDBError Json × List NativeCall :=
  match cStringNew id with
  | Except.error e => (Except.error (ChronDBError.OperationFailed e), [])
  | Except.ok _ =>
  match optional_cstring branch with
  | Except.error e => (Except.error (ChronDBError.OperationFailed e), [])
  | Except.ok _ =>
  match o.getRet with
  | none => (Except.error ChronDBError.NotFound, [NativeCall.callGet id branch])
  | some s =>
    let r := parse_string_result o parse (some s)
    (r.fst, NativeCall.callGet id branch :: r.snd)

/-- FfiWorkerState::handle_delete (lib.rs lines 205-223): native 0 is
success, 1 is NotFound, anything else last_error_or "delete failed". -/
def handle_delete (o : NativeOracle) (id : String) (branch : Option String) :
    Except ChronDBError Unit × List NativeCall :=
  match cStringNew id with
  | Except.error e => (Except.error (ChronDBError.OperationFailed e), [])
  | Except.ok _ =>
  match optional_cstring branch with
  | Except.error e => (Except.error (ChronDBError.OperationFailed e), [])
  | Except.ok _ =>
    if o.deleteRet = 0 then (Except.ok (), [NativeCall.callDelete id branch])
    else if o.deleteRet = 1 then
      (Except.error ChronDBError.NotFound, [NativeCall.callDelete id branch])
    else
      let e := last_error_or o "delete failed"
      (Except.error e.fst, NativeCall.callDelete id branch :: e.snd)

/-- FfiWorkerState::handle_list_by_prefix (lib.rs lines 225-247): a null
result is the empty array, never an error. -/
def handle_list_by_prefix (o : NativeOracle) (parse : String → Except String Json)
    (p : String) (branch : Option String) :
    Except ChronDBError Json × List NativeCall :=
  match cStringNew p with
  | Except.error e => (Except.error (ChronDBError.OperationFailed e), [])
  | Except.ok _ =>
  match optional_cstring branch with
  | Except.error e => (Except.error (ChronDBError.OperationFailed e), [])
  | Except.ok _ =>
  match o.listPfxRet with
  | none => (Except.ok (Json.arr []), [NativeCall.callListByPfx p branch])
  | some s =>
    let r := parse_string_result o parse (some s)
    (r.fst, NativeCall.callListByPfx p branch :: r.snd)

/-- FfiWorkerState::handle_list_by_table (lib.rs lines 249-267): a null
result is the empty array, never an error. -/
def handle_list_by_table (o : NativeOracle) (parse : String → Except String Json)
    (t : String) (branch : Option String) :
    Except ChronDBError Json × List NativeCall :=
  match cStringNew t with
  | Except.error e => (Except.error (ChronDBError.OperationFailed e), [])
  | Except.ok _ =>
  match optional_cstring branch with
  | Except.error e => (Except.error (ChronDBError.OperationFailed e), [])
  | Except.ok _ =>
  match o.listTableRet with
  | none => (Except.ok (Json.arr []), [NativeCall.callListByTable t branch])
  | some s =>
    let r := parse_string_result o parse (some s)
    (r.fst, NativeCall.callListByTable t branch :: r.snd)

/-- FfiWorkerState::handle_history (lib.rs lines 269-286): a null result is
the empty array, never an error. -/
def handle_history (o : NativeOracle) (parse : String → Except String Json)
    (id : String) (branch : Option String) :
    Except ChronDBError Json × List NativeCall :=
  match cStringNew id with
  | Except.error e => (Except.error (ChronDBError.OperationFailed e), [])
  | Except.ok _ =>
  match optional_cstring branch with
  | Except.error e => (Except.error (ChronDBError.OperationFailed e), [])
  | Except.ok _ =>
  match o.historyRet with
  | none => (Except.ok (Json.arr []), [NativeCall.callHistory id branch])
  | some s =>
    let r := parse_string_result o parse (some s)
    (r.fst, NativeCall.callHistory id branch :: r.snd)

/-- FfiWorkerState::handle_query (lib.rs lines 288-306): a null result IS an
error, last_error_or "query failed". -/
def handle_query (o : NativeOracle) (parse : String → Except String Json)
    (q : String) (branch : Option String) :
    Except ChronDBError Json × List NativeCall :=
  match cStringNew q with
  | Except.error e => (Except.error (ChronDBError.OperationFailed e), [])
  | Except.ok _ =>
  match optional_cstring branch with
  | Except.error e => (Except.error (ChronDBError.OperationFailed e), [])
  | Except.ok _ =>
  match o.queryRet with
  | none =>
    let e := last_error_or o "query failed"
    (Except.error e.fst, NativeCall.callQuery q branch :: e.snd)
  | some s =>
    let r := parse_string_result o parse (some s)
    (r.fst, NativeCall.callQuery q branch :: r.snd)

/-- The mutable part of FfiWorkerState (lib.rs lines 102-108): the resource
handle and whether the isolate/thread pointers have been nulled.  The
`lib` field (the symbol table) is carried separately as the oracle. -/
structure FfiWorkerState where
  handle : Int
  threadNull : Bool
  isolateNull : Bool
deriving DecidableEq, Repr

/-- FfiWorkerState::close (lib.rs lines 308-323): close the resource handle
if still valid and invalidate it, then tear down the isolate if the thread
pointer is still non-null and null both pointers. -/
def FfiWorkerState.close (s : FfiWorkerState) : FfiWorkerState × List NativeCall :=
  let step1 : FfiWorkerState × List NativeCall :=
    if 0 ≤ s.handle then
      ({ s with handle := -1 }, [NativeCall.callClose s.handle])
    else (s, [])
  let s1 := step1.fst
  let step2 : FfiWorkerState × List NativeCall :=
    if s1.threadNull then (s1, [])
    else ({ s1 with threadNull := true, isolateNull := true }, [NativeCall.tearDownIsolate])
  (step2.fst, step1.snd ++ step2.snd)

/-- enum FfiCommand (lib.rs lines 59-100), without the reply channels. -/
inductive FfiCommand where
  | put (id doc : String) (branch : Option String)
  | get (id : String) (branch : Option String)
  | delete (id : String) (branch : Option String)
  | listByPfx (p : String) (branch : Option String)
  | listByTable (t : String) (branch : Option String)
  | history (id : String) (branch : Option String)
  | query (q : String) (branch : Option String)
  | lastError
  | shutdown
deriving DecidableEq, Repr

/-- ChronDB::run_worker_loop (lib.rs lines 506-560): dispatch commands in
FIFO order until Shutdown (or the channel closing, modelled by the end of
the list); the handlers take the state immutably, so only the trace of
native calls is accumulated.  The loop itself never calls close. -/
def run_worker_loop (o : NativeOracle) (parse : String → Except String Json) :
    List FfiCommand → List NativeCall
  | [] => []
  | FfiCommand.put id doc br :: rest =>
    (handle_put o parse id doc br).snd ++ run_worker_loop o parse rest
  | FfiCommand.get id br :: rest =>
    (handle_get o parse id br).snd ++ run_worker_loop o parse rest
  | FfiCommand.delete id br :: rest =>
    (handle_delete o id br).snd ++ run_worker_loop o parse rest
  | FfiCommand.listByPfx p br :: rest =>
    ( handle_list_by_prefix o parse p br).snd ++ run_worker_loop o parse rest
  | FfiCommand.listByTable t br :: rest =>
    (handle_list_by_table o parse t br).snd ++ run_worker_loop o parse rest
  | FfiCommand.history id br :: rest =>
    (handle_history o parse id br).snd ++ run_worker_loop o parse rest
  | FfiCommand.query q br :: rest =>
    (handle_query o parse q br).snd ++ run_worker_loop o parse rest
  | FfiCommand.lastError :: rest =>
    (get_last_error o).snd ++ run_worker_loop o parse rest
  | FfiCommand.shutdown :: _ => []

/-- The body of the spawned worker thread after a successful init (lib.rs
lines 434-437): run the command loop, then call close exactly once. -/
def worker_body (o : NativeOracle) (parse : String → Except String Json)
    (s : FfiWorkerState) (cmds : List FfiCommand) : FfiWorkerState × List NativeCall :=
  let t := run_worker_loop o parse cmds
  let c := s.close
  (c.fst, t ++ c.snd)

/-- Whether a native call is the chrondb_close call. -/
def NativeCall.isCloseCall : NativeCall → Bool
  | NativeCall.callClose _ => true
  | _ => false

/-- Whether a native call is the isolate teardown call. -/
def NativeCall.isTearDown : NativeCall → Bool
  | NativeCall.tearDownIsolate => true
  | _ => false

deriving instance DecidableEq for Except

/-- What the external world would answer during worker creation: the
outcome of get_library, whether thread::spawn succeeds, the status of
graal_create_isolate, the handle returned by chrondb_open, and the
pending native last-error text. -/
structure OpenEnv where
  lib : Except String Unit
  spawnOk : Bool
  createIsolateRet : Int
  openRet : Int
  lastErr : Option String
deriving DecidableEq, Repr

/-- ChronDB::init_worker (lib.rs lines 459-504): get_library, create the
isolate, build the two path CStrings, call chrondb_open; a negative handle
fetches the last-error text (empty when null), tears the isolate down and
returns OpenFailed of that text. -/
def init_worker (env : OpenEnv) (data_path index_path : String) :
    Except ChronDBError FfiWorkerState × List NativeCall :=
  match env.lib with
  | Except.error m => (Except.error (ChronDBError.SetupFailed m), [])
  | Except.ok _ =>
  if env.createIsolateRet ≠ 0 then
    (Except.error ChronDBError.IsolateCreationFailed, [NativeCall.createIsolate])
  else
  match cStringNew data_path with
  | Except.error e => (Except.error (ChronDBError.OpenFailed e), [NativeCall.createIsolate])
  | Except.ok _ =>
  match cStringNew index_path with
  | Except.error e => (Except.error (ChronDBError.OpenFailed e), [NativeCall.createIsolate])
  | Except.ok _ =>
  if env.openRet < 0 then
    let freeTrace : List NativeCall :=
      match env.lastErr with
      | none => []
      | some s => [NativeCall.callFreeString s]
    (Except.error (ChronDBError.OpenFailed (env.lastErr.getD "")),
      [NativeCall.createIsolate, NativeCall.callOpen data_path index_path,
        NativeCall.callLastError] ++ freeTrace ++ [NativeCall.tearDownIsolate])
  else
    (Except.ok { handle := env.openRet, threadNull := false, isolateNull := false },
      [NativeCall.createIsolate, NativeCall.callOpen data_path index_path])

/-- One SharedWorker as seen by the registry model: its identity, its
canonical path key, and the number of strong Arc references to it. -/
structure Worker where
  wid : Nat
  key : String × String
  strong : Nat
deriving DecidableEq, Repr

/-- The process-wide state of the broker: WORKER_REGISTRY (weak references,
as ids), the live SharedWorker allocations with their strong counts, and a
counter for fresh worker identities. -/
structure BrokerState where
  registry : List ((String × String) × Nat)
  workers : List Worker
  nextId : Nat
deriving DecidableEq, Repr

/-- The registry before any open: an empty map. -/
def initialBroker : BrokerState := { registry := [], workers := [], nextId := 0 }

/-- std::fs::canonicalize with the unwrap_or_else fallback to the literal
path (lib.rs lines 379-382); `canon` is the filesystem oracle. -/
def canonicalizePath (canon : String → Option String) (p : String) : String :=
  (canon p).getD p

/-- HashMap::get on the registry: the first entry with the key. -/
def registryLookup : List ((String × String) × Nat) → (String × String) → Option Nat
  | [], _ => none
  | e :: rest, k => if e.fst = k then some e.snd else registryLookup rest k

/-- The worker allocation with a given id, if any. -/
def BrokerState.findWorker (st : BrokerState) (w : Nat) : Option Worker :=
  st.workers.find? (fun x => x.wid == w)

/-- Weak::upgrade succeeds exactly when a strong reference is still alive. -/
def BrokerState.isLive (st : BrokerState) (w : Nat) : Bool :=
  match st.findWorker w with
  | some x => decide (0 < x.strong)
  | none => false

/-- Cloning the Arc: one more strong reference to worker `w`. -/
def BrokerState.addStrong (st : BrokerState) (w : Nat) : BrokerState :=
  { st with
    workers := st.workers.map (fun x =>
      if x.wid = w then { x with strong := x.strong + 1 } else x) }

/-- ChronDB::open (lib.rs lines 377-411): canonicalize both paths to the
registry key; under the registry lock, if the key maps to a worker whose
weak reference upgrades, return a new strong reference to it; otherwise
run create_new_worker (spawn + init_worker, lib.rs lines 413-457) and on
success register the new worker under the key and hand out the first
strong reference.  The result is the id of the worker backing the handle. -/
def openDB (env : OpenEnv) (canon : String → Option String) (st : BrokerState)
    (data_path index_path : String) : Except ChronDBError Nat × BrokerState :=
  let key := (canonicalizePath canon data_path, canonicalizePath canon index_path)
  let reuse : Option Nat :=
    match registryLookup st.registry key with
    | some w => if st.isLive w then some w else none
    | none => none
  match reuse with
  | some w => (Except.ok w, st.addStrong w)
  | none =>
    if env.spawnOk then
      match (init_worker env data_path index_path).fst with
      | Except.error e => (Except.error e, st)
      | Except.ok _ =>
        let w := st.nextId
        (Except.ok w,
          { registry := (key, w) :: st.registry,
            workers := { wid := w, key := key, strong := 1 } :: st.workers,
            nextId := w + 1 })
    else (Except.error ChronDBError.IsolateCreationFailed, st)

/-- Dropping one ChronDB handle backed by worker `w`: the Arc strong count
drops by one; at zero, SharedWorker::drop (lib.rs lines 325-343) removes
the key from the registry, sends Shutdown and joins the worker. -/
def dropHandle (st : BrokerState) (w : Nat) : BrokerState :=
  match st.findWorker w with
  | none => st
  | some x =>
    if x.strong ≤ 1 then
      { registry := st.registry.filter (fun e => ! decide (e.fst = x.key)),
        workers := st.workers.filter (fun y => ! decide (y.wid = w)),
        nextId := st.nextId }
    else
      { st with
        workers := st.workers.map (fun y =>
          if y.wid = w then { y with strong := y.strong - 1 } else y) }

/-- One event of a client: acquiring a handle via ChronDB::open (with the
external outcomes it would observe) or releasing one. -/
inductive BrokerOp where
  | openOp (env : OpenEnv) (data_path index_path : String)
  | dropOp (w : Nat)

/-- Apply one broker event to the process state. -/
def brokerStep (canon : String → Option String) (st : BrokerState) :
    BrokerOp → BrokerState
  | BrokerOp.openOp env d i => (openDB env canon st d i).snd
  | BrokerOp.dropOp w => dropHandle st w

/-- The broker state after a sequence of open and drop events, starting
from the empty registry. -/
def replayBroker (canon : String → Option String) (ops : List BrokerOp) : BrokerState :=
  ops.foldl (brokerStep canon) initialBroker

/-- The registry/worker invariant of the broker: every live worker has a
positive strong count, is registered under its key, every registry entry
is backed by a live worker with that key, worker ids identify workers,
and all ids are below the freshness counter. -/
structure BrokerInv (st : BrokerState) : Prop where
  strongPos : ∀ w ∈ st.workers, 0 < w.strong
  registered : ∀ w ∈ st.workers, registryLookup st.registry w.key = some w.wid
  backed : ∀ k v, registryLookup st.registry k = some v →
    ∃ w, w ∈ st.workers ∧ w.wid = v ∧ w.key = k
  widInj : ∀ w1 ∈ st.workers, ∀ w2 ∈ st.workers, w1.wid = w2.wid → w1 = w2
  widBound : ∀ w ∈ st.workers, w.wid < st.nextId

/-- How a public operation's round trip to the worker thread ends: the
command-channel send fails (worker receiver gone), the one-shot reply
channel closes without a reply (worker gone mid-operation), or the worker
is alive and dispatches the command.  A terminated worker thread can only
produce the first two. -/
inductive WorkerFate where
  | deadAtSend
  | deadAtReply
  | alive
deriving DecidableEq, Repr

/-- ChronDB::put (lib.rs lines 565-587) composed with the worker loop
dispatch: a send failure and a closed reply channel both become
OperationFailed "worker thread died"; an alive worker answers with
handle_put's result. -/
def ChronDB_put (fate : WorkerFate) (o : NativeOracle) (parse : String → Except String Json)
    (id doc : String) (branch : Option String) : Except ChronDBError Json :=
  match fate with
  | WorkerFate.deadAtSend => Except.error (ChronDBError.OperationFailed ("worker thread died"))
  | WorkerFate.deadAtReply => Except.error (ChronDBError.OperationFailed ("worker thread died"))
  | WorkerFate.alive => (handle_put o parse id doc branch).fst

/-- ChronDB::get (lib.rs lines 592-607) composed with the worker dispatch. -/
def ChronDB_get (fate : WorkerFate) (o : NativeOracle) (parse : String → Except String Json)
    (id : String) (branch : Option String) : Except ChronDBError Json :=
  match fate with
  | WorkerFate.deadAtSend => Except.error (ChronDBError.OperationFailed ("worker thread died"))
  | WorkerFate.deadAtReply => Except.error (ChronDBError.OperationFailed ("worker thread died"))
  | WorkerFate.alive => (handle_get o parse id branch).fst

/-- ChronDB::delete (lib.rs lines 612-627) composed with the worker dispatch. -/
def ChronDB_delete (fate : WorkerFate) (o : NativeOracle)
    (id : String) (branch : Option String) : Except ChronDBError Unit :=
  match fate with
  | WorkerFate.deadAtSend => Except.error (ChronDBError.OperationFailed ("worker thread died"))
  | WorkerFate.deadAtReply => Except.error (ChronDBError.OperationFailed ("worker thread died"))
  | WorkerFate.alive => (handle_delete o id branch).fst

/-- ChronDB::list_by_prefix (lib.rs lines 630-645) composed with the worker
dispatch. -/
def ChronDB_list_by_prefix (fate : WorkerFate) (o : NativeOracle)
    (parse : String → Except String Json) (p : String) (branch : Option String) :
    Except ChronDBError Json :=
  match fate with
  | WorkerFate.deadAtSend => Except.error (ChronDBError.OperationFailed ("worker thread died"))
  | WorkerFate.deadAtReply => Except.error (ChronDBError.OperationFailed ("worker thread died"))
  | WorkerFate.alive => ( handle_list_by_prefix o parse p branch).fst

/-- ChronDB::list_by_table (lib.rs lines 648-663) composed with the worker
dispatch. -/
def ChronDB_list_by_table (fate : WorkerFate) (o : NativeOracle)
    (parse : String → Except String Json) (t : String) (branch : Option String) :
    Except ChronDBError Json :=
  match fate with
  | WorkerFate.deadAtSend => Except.error (ChronDBError.OperationFailed ("worker thread died"))
  | WorkerFate.deadAtReply => Except.error (ChronDBError.OperationFailed ("worker thread died"))
  | WorkerFate.alive => (handle_list_by_table o parse t branch).fst

/-- ChronDB::history (lib.rs lines 666-681) composed with the worker
dispatch. -/
def ChronDB_history (fate : WorkerFate) (o : NativeOracle)
    (parse : String → Except String Json) (id : String) (branch : Option String) :
    Except ChronDBError Json :=
  match fate with
  | WorkerFate.deadAtSend => Except.error (ChronDBError.OperationFailed ("worker thread died"))
  | WorkerFate.deadAtReply => Except.error (ChronDBError.OperationFailed ("worker thread died"))
  | WorkerFate.alive => (handle_history o parse id branch).fst

/-- ChronDB::query (lib.rs lines 686-706) composed with the worker
dispatch. -/
def ChronDB_query (fate : WorkerFate) (o : NativeOracle)
    (parse : String → Except String Json) (q : String) (branch : Option String) :
    Except ChronDBError Json :=
  match fate with
  | WorkerFate.deadAtSend => Except.error (ChronDBError.OperationFailed ("worker thread died"))
  | WorkerFate.deadAtReply => Except.error (ChronDBError.OperationFailed ("worker thread died"))
  | WorkerFate.alive => (handle_query o parse q branch).fst

/-- ChronDB::last_error (lib.rs lines 709-722): a failed send returns None,
recv().ok().flatten() turns a closed reply channel into None, and an alive
worker replies with get_last_error's text. -/
def ChronDB_last_error (fate : WorkerFate) (o : NativeOracle) : Option String :=
  match fate with
  | WorkerFate.deadAtSend => none
  | WorkerFate.deadAtReply => none
  | WorkerFate.alive => (get_last_error o).fst

/-- What the filesystem, the network and dlopen would answer during library
provisioning (setup.rs and ffi.rs): whether library_exists() finds the
artifact, the outcome of download_library's I/O, and the outcome of
ChronDBLib::load (dlopen plus symbol resolution), whose success is an
opaque symbol-table token. -/
structure SetupEnv where
  libExists : Bool
  download : Except String Unit
  load : Except String Nat
deriving DecidableEq, Repr

/-- The provisioning I/O steps whose re-execution the memoization is meant
to prevent. -/
inductive SetupEff where
  | checkExists
  | doDownload
  | loadLib
deriving DecidableEq, Repr

/-- The two process-wide OnceLock cells: SETUP_RESULT (setup.rs line 13)
and LIBRARY (ffi.rs line 125), each either still empty or filled with the
cached first outcome. -/
structure ProcessCells where
  setupResult : Option (Except String Unit)
  libResult : Option (Except String Nat)
deriving DecidableEq, Repr

/-- ensure_library_installed (setup.rs lines 195-208): get_or_init on
SETUP_RESULT runs library_exists / download_library only on the first
call; the cached outcome is wrapped into SetupFailed on each observation. -/
def ensure_library_installed (env : SetupEnv) (st : ProcessCells) :
    Except ChronDBError Unit × ProcessCells × List SetupEff :=
  match st.setupResult with
  | some (Except.ok _) => (Except.ok (), st, [])
  | some (Except.error m) => (Except.error (ChronDBError.SetupFailed m), st, [])
  | none =>
    let r : Except String Unit × List SetupEff :=
      if env.libExists then (Except.ok (), [SetupEff.checkExists])
      else (env.download, [SetupEff.checkExists, SetupEff.doDownload])
    let st2 := { st with setupResult := some r.fst }
    match r.fst with
    | Except.ok _ => (Except.ok (), st2, r.snd)
    | Except.error m => (Except.error (ChronDBError.SetupFailed m), st2, r.snd)

/-- get_library (ffi.rs lines 255-266): ensure_library_installed first, then
get_or_init on LIBRARY runs ChronDBLib::load only on the first arrival;
a cached load failure is replayed as SetupFailed of the same message. -/
def get_library (env : SetupEnv) (st : ProcessCells) :
    Except ChronDBError Nat × ProcessCells × List SetupEff :=
  let e := ensure_library_installed env st
  match e.fst with
  | Except.error err => (Except.error err, e.snd.fst, e.snd.snd)
  | Except.ok _ =>
    let st1 := e.snd.fst
    match st1.libResult with
    | some (Except.ok lib) => (Except.ok lib, st1, e.snd.snd)
    | some (Except.error m) => (Except.error (ChronDBError.SetupFailed m), st1, e.snd.snd)
    | none =>
      let st2 := { st1 with libResult := some env.load }
      match env.load with
      | Except.ok lib => (Except.ok lib, st2, e.snd.snd ++ [SetupEff.loadLib])
      | Except.error m =>
        (Except.error (ChronDBError.SetupFailed m), st2, e.snd.snd ++ [SetupEff.loadLib])

/-- What the platform, filesystem and network would answer during
download_library (setup.rs lines 90-186): get_platform(),
chrondb_home_lib_dir(), the HTTP fetch, creating the temp extraction
directory, tar unpack, reading the temp directory (Ok true when a
top-level extracted directory is found), creating the lib directory, the
two flattening copy loops, whether remove_dir_all succeeds (its result is
discarded by .ok()), and the final existence check of the artifact. -/
structure DlEnv where
  platform : Option String
  homeLibDir : Option String
  fetch : Except String Unit
  mkTempDir : Except String Unit
  unpack : Except String Unit
  readTempDir : Except String Bool
  mkLibDir : Except String Unit
  copyFiles : Except String Unit
  removeOk : Bool
  libFileExists : Bool
deriving DecidableEq, Repr

/-- The filesystem/network effects of download_library that matter to its
cleanup contract. -/
inductive DlEff where
  | fetch
  | createTemp
  | unpack
  | readTemp
  | createLibDir
  | copyFiles
  | removeTemp
  | verify
deriving DecidableEq, Repr

/-- download_library (setup.rs lines 90-186), with its I/O answered by
`env` and the effect trace recorded in order.  remove_dir_all runs with
.ok() (its own failure, env.removeOk = false, is discarded) after the copy
loops, before the final verification; every earlier failure returns early. -/
def download_library (env : DlEnv) : Except String Unit × List DlEff :=
  match env.platform with
  | none => (Except.error ("No pre-built library available for this platform"), [])
  | some _ =>
  match env.homeLibDir with
  | none => (Except.error ("Cannot determine home directory"), [])
  | some _ =>
  match env.fetch with
  | Except.error m => (Except.error ("Failed to download library: " ++ m), [DlEff.fetch])
  | Except.ok _ =>
  match env.mkTempDir with
  | Except.error m =>
    (Except.error ("Failed to create temp directory: " ++ m), [DlEff.fetch, DlEff.createTemp])
  | Except.ok _ =>
  match env.unpack with
  | Except.error m =>
    (Except.error ("Failed to extract archive: " ++ m),
      [DlEff.fetch, DlEff.createTemp, DlEff.unpack])
  | Except.ok _ =>
  match env.readTempDir with
  | Except.error m =>
    (Except.error ("Failed to read temp directory: " ++ m),
      [DlEff.fetch, DlEff.createTemp, DlEff.unpack, DlEff.readTemp])
  | Except.ok hasTopDir =>
  match env.mkLibDir with
  | Except.error m =>
    (Except.error ("Failed to create lib directory: " ++ m),
      [DlEff.fetch, DlEff.createTemp, DlEff.unpack, DlEff.readTemp, DlEff.createLibDir])
  | Except.ok _ =>
  if hasTopDir = false then
    (Except.error ("Archive did not contain expected directory structure"),
      [DlEff.fetch, DlEff.createTemp, DlEff.unpack, DlEff.readTemp, DlEff.createLibDir])
  else
  match env.copyFiles with
  | Except.error m =>
    (Except.error m,
      [DlEff.fetch, DlEff.createTemp, DlEff.unpack, DlEff.readTemp, DlEff.createLibDir,
        DlEff.copyFiles])
  | Except.ok _ =>
    let t := [DlEff.fetch, DlEff.createTemp, DlEff.unpack, DlEff.readTemp, DlEff.createLibDir,
      DlEff.copyFiles, DlEff.removeTemp, DlEff.verify]
    if env.libFileExists then (Except.ok (), t)
    else (Except.error ("Library was not found after extraction"), t)

/-- A one-character string holding only an embedded NUL byte. -/
def nulString : String := String.mk [Char.ofNat 0]

/-- A creation environment in which everything succeeds (handle 0). -/
def envOk : OpenEnv :=
  { lib := Except.ok (), spawnOk := true, createIsolateRet := 0, openRet := 0, lastErr := none }

/-- Whether the optional branch argument holds an embedded NUL. -/
def branchHasNul : Option String → Bool
  | some b => hasNulByte b
  | none => false

/-- Whether a native call is part of teardown (chrondb_close or
graal_tear_down_isolate). -/
def NativeCall.isClosing (c : NativeCall) : Bool :=
  c.isCloseCall || c.isTearDown

/-- A provisioning environment whose tar extraction fails after the temp
directory was created. -/
def envUnpackFails : DlEnv :=
  { platform := some ("linux-x86_64"), homeLibDir := some ("home/.chrondb/lib"),
    fetch := Except.ok (), mkTempDir := Except.ok (), unpack := Except.error ("boom"),
    readTempDir := Except.ok true, mkLibDir := Except.ok (), copyFiles := Except.ok (),
    removeOk := true, libFileExists := true }

/-- A creation environment whose chrondb_open call fails (negative handle)
with a pending native error text. -/
def envOpenFails : OpenEnv :=
  { lib := Except.ok (), spawnOk := true, createIsolateRet := 0, openRet := -1,
    lastErr := some ("storage locked") }

/-- An oracle on which every native operation reports no data: null string
results everywhere, delete status 0, no pending last error. -/
def oracleEmpty : NativeOracle :=
  { putRet := none, getRet := none, deleteRet := 0, listPfxRet := none,
    listTableRet := none, historyRet := none, queryRet := none, lastErr := none }

/-- An oracle on which every string-returning native operation yields the
same non-null text "x" (and delete reports status 2). -/
def oracleText : NativeOracle :=
  { putRet := some ("x"), getRet := some ("x"), deleteRet := 2, listPfxRet := some ("x"),
    listTableRet := some ("x"), historyRet := some ("x"), queryRet := some ("x"),
    lastErr := none }

theorem cStringNew_ok {s : String} (h : hasNulByte s = false) : cStringNew s = Except.ok () := by
  simp [cStringNew, h]

theorem get_last_error_fst (o : NativeOracle) : (get_last_error o).fst = o.lastErr := by
  cases h : o.lastErr <;> simp [get_last_error, h]

/-- C2: delete decodes native status 0 as Ok, 1 as NotFound and any other
status as OperationFailed with the native diagnostic (default "delete
failed"); get decodes a null native string as NotFound; list_by_prefix,
list_by_table and history decode a null native string as the empty array
(Ok, never an error); query decodes a null native string as
OperationFailed (default "query failed"). -/
theorem c2_native_return_decoding (o : NativeOracle) (parse : String → Except String Json)
    (id p t q : String) (br : Option String)
    (hid : hasNulByte id = false) (hp : hasNulByte p = false)
    (ht : hasNulByte t = false) (hq : hasNulByte q = false)
    (hbr : optional_cstring br = Except.ok ()) :
    (o.deleteRet = 0 → (handle_delete o id br).fst = Except.ok ()) ∧
    (o.deleteRet = 1 → (handle_delete o id br).fst = Except.error ChronDBError.NotFound) ∧
    (o.deleteRet ≠ 0 → o.deleteRet ≠ 1 →
      (handle_delete o id br).fst =
        Except.error (ChronDBError.OperationFailed (o.lastErr.getD ("delete failed")))) ∧
    (o.getRet = none → (handle_get o parse id br).fst = Except.error ChronDBError.NotFound) ∧
    (o.listPfxRet = none →
      ( handle_list_by_prefix o parse p br).fst = Except.ok (Json.arr [])) ∧
    (o.listTableRet = none →
      (handle_list_by_table o parse t br).fst = Except.ok (Json.arr [])) ∧
    (o.historyRet = none → (handle_history o parse id br).fst = Except.ok (Json.arr [])) ∧
    (o.queryRet = none → (handle_query o parse q br).fst =
      Except.error (ChronDBError.OperationFailed (o.lastErr.getD ("query failed")))) := by
  refine ⟨?_, ?_, ?_, ?_, ?_, ?_, ?_, ?_⟩
  · intro h0
    simp [handle_delete, cStringNew_ok hid, hbr, h0]
  · intro h1
    simp [handle_delete, cStringNew_ok hid, hbr, h1]
  · intro h0 h1
    simp [handle_delete, cStringNew_ok hid, hbr, h0, h1, last_error_or, get_last_error_fst]
  · intro hg
    simp [handle_get, cStringNew_ok hid, hbr, hg]
  · intro hl
    simp [ handle_list_by_prefix, cStringNew_ok hp, hbr, hl]
  · intro hl
    simp [handle_list_by_table, cStringNew_ok ht, hbr, hl]
  · intro hh
    simp [handle_history, cStringNew_ok hid, hbr, hh]
  · intro hqn
    simp [handle_query, cStringNew_ok hq, hbr, hqn, last_error_or, get_last_error_fst]

theorem c2_native_return_decoding_witness :
    (handle_delete oracleEmpty ("a") none).fst = Except.ok () ∧
    (handle_get oracleEmpty (fun _ => Except.error ("")) ("a") none).fst =
      Except.error ChronDBError.NotFound := by
  have h := c2_native_return_decoding oracleEmpty (fun _ => Except.error (""))
    ("a") ("p") ("t") ("q") none (by decide) (by decide) (by decide) (by decide) (by decide)
  exact ⟨h.1 (by decide), h.2.2.2.1 (by decide)⟩

/-- C5: once the worker thread has terminated, every operation method on a
handle backed by it returns OperationFailed "worker thread died", whether
the failure is seen when sending the command or when waiting for the
reply. -/
theorem c5_dead_worker_uniform_error (fate : WorkerFate) (o : NativeOracle)
    (parse : String → Except String Json) (id doc p t q : String) (br : Option String)
    (h : fate ≠ WorkerFate.alive) :
    ChronDB_put fate o parse id doc br =
      Except.error (ChronDBError.OperationFailed ("worker thread died")) ∧
    ChronDB_get fate o parse id br =
      Except.error (ChronDBError.OperationFailed ("worker thread died")) ∧
    ChronDB_delete fate o id br =
      Except.error (ChronDBError.OperationFailed ("worker thread died")) ∧
    ChronDB_list_by_prefix fate o parse p br =
      Except.error (ChronDBError.OperationFailed ("worker thread died")) ∧
    ChronDB_list_by_table fate o parse t br =
      Except.error (ChronDBError.OperationFailed ("worker thread died")) ∧
    ChronDB_history fate o parse id br =
      Except.error (ChronDBError.OperationFailed ("worker thread died")) ∧
    ChronDB_query fate o parse q br =
      Except.error (ChronDBError.OperationFailed ("worker thread died")) := by
  cases fate with
  | alive => exact absurd rfl h
  | deadAtSend => exact ⟨rfl, rfl, rfl, rfl, rfl, rfl, rfl⟩
  | deadAtReply => exact ⟨rfl, rfl, rfl, rfl, rfl, rfl, rfl⟩

theorem c5_dead_worker_uniform_error_witness :
    ChronDB_put WorkerFate.deadAtSend oracleEmpty (fun _ => Except.error ("")) ("a") ("d") none =
      Except.error (ChronDBError.OperationFailed ("worker thread died")) :=
  (c5_dead_worker_uniform_error WorkerFate.deadAtSend oracleEmpty (fun _ => Except.error (""))
    ("a") ("d") ("p") ("t") ("q") none (by decide)).1

/-- C9: whenever a native string result is non-null but fails to parse as
JSON, the operation frees the native string and returns JsonError with the
parse diagnostic (never OperationFailed, never the raw text). -/
theorem c9_invalid_json_freed_and_json_error (o : NativeOracle)
    (parse : String → Except String Json) (s e : String)
    (id doc p t q : String) (br : Option String)
    (hs : parse s = Except.error e)
    (hid : hasNulByte id = false) (hdoc : hasNulByte doc = false)
    (hp : hasNulByte p = false) (ht : hasNulByte t = false)
    (hq : hasNulByte q = false) (hbr : optional_cstring br = Except.ok ()) :
    (o.putRet = some s → handle_put o parse id doc br =
      (Except.error (ChronDBError.JsonError e),
        [NativeCall.callPut id doc br, NativeCall.callFreeString s])) ∧
    (o.getRet = some s → handle_get o parse id br =
      (Except.error (ChronDBError.JsonError e),
        [NativeCall.callGet id br, NativeCall.callFreeString s])) ∧
    (o.listPfxRet = some s → handle_list_by_prefix o parse p br =
      (Except.error (ChronDBError.JsonError e),
        [NativeCall.callListByPfx p br, NativeCall.callFreeString s])) ∧
    (o.listTableRet = some s → handle_list_by_table o parse t br =
      (Except.error (ChronDBError.JsonError e),
        [NativeCall.callListByTable t br, NativeCall.callFreeString s])) ∧
    (o.historyRet = some s → handle_history o parse id br =
      (Except.error (ChronDBError.JsonError e),
        [NativeCall.callHistory id br, NativeCall.callFreeString s])) ∧
    (o.queryRet = some s → handle_query o parse q br =
      (Except.error (ChronDBError.JsonError e),
        [NativeCall.callQuery q br, NativeCall.callFreeString s])) := by
  refine ⟨?_, ?_, ?_, ?_, ?_, ?_⟩
  · intro hput
    simp [handle_put, cStringNew_ok hid, cStringNew_ok hdoc, hbr, hput,
      parse_string_result, hs]
  · intro hget
    simp [handle_get, cStringNew_ok hid, hbr, hget, parse_string_result, hs]
  · intro hl
    simp [ handle_list_by_prefix, cStringNew_ok hp, hbr, hl, parse_string_result, hs]
  · intro hl
    simp [handle_list_by_table, cStringNew_ok ht, hbr, hl, parse_string_result, hs]
  · intro hh
    simp [handle_history, cStringNew_ok hid, hbr, hh, parse_string_result, hs]
  · intro hqr
    simp [handle_query, cStringNew_ok hq, hbr, hqr, parse_string_result, hs]

theorem c9_invalid_json_freed_and_json_error_witness :
    handle_get oracleText (fun _ => Except.error ("bad json")) ("a") none =
      (Except.error (ChronDBError.JsonError ("bad json")),
        [NativeCall.callGet ("a") none, NativeCall.callFreeString ("x")]) :=
  (c9_invalid_json_freed_and_json_error oracleText (fun _ => Except.error ("bad json"))
    ("x") ("bad json") ("a") ("d") ("p") ("t") ("q") none rfl (by decide) (by decide)
    (by decide) (by decide) (by decide) (by decide)).2.1 rfl

/-- C10: last_error never surfaces an error value: a dead worker (failed
send or closed reply channel) yields None, indistinguishable from an alive
worker whose native engine has no pending error; it does not produce the
OperationFailed "worker thread died" of the other operations. -/
theorem c10_last_error_never_errors (fate : WorkerFate) (o : NativeOracle)
    (h : fate ≠ WorkerFate.alive) :
    ChronDB_last_error fate o = none ∧
    ChronDB_last_error fate o =
      ChronDB_last_error WorkerFate.alive { o with lastErr := none } := by
  cases fate with
  | alive => exact absurd rfl h
  | deadAtSend => exact ⟨rfl, by simp [ChronDB_last_error, get_last_error]⟩
  | deadAtReply => exact ⟨rfl, by simp [ChronDB_last_error, get_last_error]⟩

theorem c10_last_error_never_errors_witness :
    ChronDB_last_error WorkerFate.deadAtSend oracleText = none :=
  (c10_last_error_never_errors WorkerFate.deadAtSend oracleText (by decide)).1

/-- C4 counterexample: an open path with an embedded NUL is rejected with
OpenFailed, not OperationFailed, and only after the graal_create_isolate
native call has already been made — refuting both halves of the claim for
the open paths at a concrete input. -/
theorem c4_nul_rejection_counterexample :
    (init_worker envOk ("a" ++ nulString) ("b")).fst =
      Except.error (ChronDBError.OpenFailed ("nul byte found in provided data at position 1")) ∧
    (init_worker envOk ("a" ++ nulString) ("b")).snd = [NativeCall.createIsolate] := by
  decide

/-- C4 amended: for the seven operations an embedded NUL in any string
argument (id, document text, prefix, table, query, branch) yields
OperationFailed with no native call at all; the open paths instead yield
OpenFailed, after the isolate-creation native call but with no chrondb_open
call. -/
theorem c4_nul_rejected_before_native_calls (o : NativeOracle)
    (parse : String → Except String Json) (env : OpenEnv)
    (id doc p t q d i : String) (br : Option String) :
    ((hasNulByte id || hasNulByte doc || branchHasNul br) = true →
      ∃ m, handle_put o parse id doc br =
        (Except.error (ChronDBError.OperationFailed m), [])) ∧
    ((hasNulByte id || branchHasNul br) = true →
      ∃ m, handle_get o parse id br =
        (Except.error (ChronDBError.OperationFailed m), [])) ∧
    ((hasNulByte id || branchHasNul br) = true →
      ∃ m, handle_delete o id br =
        (Except.error (ChronDBError.OperationFailed m), [])) ∧
    ((hasNulByte p || branchHasNul br) = true →
      ∃ m, handle_list_by_prefix o parse p br =
        (Except.error (ChronDBError.OperationFailed m), [])) ∧
    ((hasNulByte t || branchHasNul br) = true →
      ∃ m, handle_list_by_table o parse t br =
        (Except.error (ChronDBError.OperationFailed m), [])) ∧
    ((hasNulByte id || branchHasNul br) = true →
      ∃ m, handle_history o parse id br =
        (Except.error (ChronDBError.OperationFailed m), [])) ∧
    ((hasNulByte q || branchHasNul br) = true →
      ∃ m, handle_query o parse q br =
        (Except.error (ChronDBError.OperationFailed m), [])) ∧
    (env.lib = Except.ok () → env.createIsolateRet = 0 →
      (hasNulByte d || hasNulByte i) = true →
      ∃ m, init_worker env d i =
        (Except.error (ChronDBError.OpenFailed m), [NativeCall.createIsolate])) := by
  have hbr : ∀ b, br = some b → hasNulByte b = true →
      optional_cstring br = Except.error (nulErrorMsg b) := by
    intro b hb hnul
    subst hb
    simp [optional_cstring, cStringNew, hnul]
  refine ⟨?_, ?_, ?_, ?_, ?_, ?_, ?_, ?_⟩
  · intro h
    cases hid : hasNulByte id with
    | true => exact ⟨nulErrorMsg id, by simp [handle_put, cStringNew, hid]⟩
    | false =>
      cases hdoc : hasNulByte doc with
      | true =>
        exact ⟨nulErrorMsg doc, by simp [handle_put, cStringNew, hid, hdoc]⟩
      | false =>
        cases br with
        | none => simp [hid, hdoc, branchHasNul] at h
        | some b =>
          have hb : hasNulByte b = true := by
            simpa [hid, hdoc, branchHasNul] using h
          exact ⟨nulErrorMsg b,
            by simp [handle_put, cStringNew, hid, hdoc, hbr b rfl hb]⟩
  · intro h
    cases hid : hasNulByte id with
    | true => exact ⟨nulErrorMsg id, by simp [handle_get, cStringNew, hid]⟩
    | false =>
      cases br with
      | none => simp [hid, branchHasNul] at h
      | some b =>
        have hb : hasNulByte b = true := by simpa [hid, branchHasNul] using h
        exact ⟨nulErrorMsg b, by simp [handle_get, cStringNew, hid, hbr b rfl hb]⟩
  · intro h
    cases hid : hasNulByte id with
    | true => exact ⟨nulErrorMsg id, by simp [handle_delete, cStringNew, hid]⟩
    | false =>
      cases br with
      | none => simp [hid, branchHasNul] at h
      | some b =>
        have hb : hasNulByte b = true := by simpa [hid, branchHasNul] using h
        exact ⟨nulErrorMsg b, by simp [handle_delete, cStringNew, hid, hbr b rfl hb]⟩
  · intro h
    cases hp : hasNulByte p with
    | true => exact ⟨nulErrorMsg p, by simp [ handle_list_by_prefix, cStringNew, hp]⟩
    | false =>
      cases br with
      | none => simp [hp, branchHasNul] at h
      | some b =>
        have hb : hasNulByte b = true := by simpa [hp, branchHasNul] using h
        exact ⟨nulErrorMsg b,
          by simp [ handle_list_by_prefix, cStringNew, hp, hbr b rfl hb]⟩
  · intro h
    cases ht : hasNulByte t with
    | true => exact ⟨nulErrorMsg t, by simp [handle_list_by_table, cStringNew, ht]⟩
    | false =>
      cases br with
      | none => simp [ht, branchHasNul] at h
      | some b =>
        have hb : hasNulByte b = true := by simpa [ht, branchHasNul] using h
        exact ⟨nulErrorMsg b,
          by simp [handle_list_by_table, cStringNew, ht, hbr b rfl hb]⟩
  · intro h
    cases hid : hasNulByte id with
    | true => exact ⟨nulErrorMsg id, by simp [handle_history, cStringNew, hid]⟩
    | false =>
      cases br with
      | none => simp [hid, branchHasNul] at h
      | some b =>
        have hb : hasNulByte b = true := by simpa [hid, branchHasNul] using h
        exact ⟨nulErrorMsg b, by simp [handle_history, cStringNew, hid, hbr b rfl hb]⟩
  · intro h
    cases hq : hasNulByte q with
    | true => exact ⟨nulErrorMsg q, by simp [handle_query, cStringNew, hq]⟩
    | false =>
      cases br with
      | none => simp [hq, branchHasNul] at h
      | some b =>
        have hb : hasNulByte b = true := by simpa [hq, branchHasNul] using h
        exact ⟨nulErrorMsg b, by simp [handle_query, cStringNew, hq, hbr b rfl hb]⟩
  · intro hlib hiso h
    cases hd : hasNulByte d with
    | true =>
      exact ⟨nulErrorMsg d, by simp [init_worker, hlib, hiso, cStringNew, hd]⟩
    | false =>
      have hi : hasNulByte i = true := by simpa [hd] using h
      exact ⟨nulErrorMsg i, by simp [init_worker, hlib, hiso, cStringNew, hd, hi]⟩

theorem c4_nul_rejected_before_native_calls_witness :
    handle_get oracleText (fun _ => Except.error ("")) nulString none =
      (Except.error (ChronDBError.OperationFailed
        ("nul byte found in provided data at position 0")), []) := by
  obtain ⟨m, hm⟩ := (c4_nul_rejected_before_native_calls oracleText
    (fun _ => Except.error ("")) envOk nulString ("d") ("p") ("t") ("q") ("a") ("b")
    none).2.1 (by decide)
  have hmsg : m = "nul byte found in provided data at position 0" := by
    have h2 := hm
    simp [handle_get, cStringNew, show hasNulByte nulString = true from by decide] at h2
    have h3 : nulErrorMsg nulString = "nul byte found in provided data at position 0" := by
      decide
    rw [← h3]
    exact h2.symm
  rw [hmsg] at hm
  exact hm

theorem get_last_error_trace_not_closing (o : NativeOracle) :
    ∀ x ∈ (get_last_error o).snd, x.isClosing = false := by
  cases h : o.lastErr <;>
    simp [get_last_error, h, NativeCall.isClosing, NativeCall.isCloseCall,
      NativeCall.isTearDown]

theorem parse_string_result_trace_not_closing (o : NativeOracle)
    (parse : String → Except String Json) (res : Option String) :
    ∀ x ∈ (parse_string_result o parse res).snd, x.isClosing = false := by
  cases res with
  | none =>
    intro x hx
    exact get_last_error_trace_not_closing o x
      (by simpa [parse_string_result, last_error_or] using hx)
  | some s =>
    cases hp : parse s <;>
      simp [parse_string_result, hp, NativeCall.isClosing, NativeCall.isCloseCall,
        NativeCall.isTearDown]

theorem handle_put_trace_not_closing (o : NativeOracle)
    (parse : String → Except String Json) (id doc : String) (br : Option String) :
    ∀ x ∈ (handle_put o parse id doc br).snd, x.isClosing = false := by
  cases h1 : cStringNew id with
  | error e => simp [handle_put, h1]
  | ok u1 =>
    cases h2 : cStringNew doc with
    | error e => simp [handle_put, h1, h2]
    | ok u2 =>
      cases h3 : optional_cstring br with
      | error e => simp [handle_put, h1, h2, h3]
      | ok u3 =>
        intro x hx
        simp only [handle_put, h1, h2, h3, List.mem_cons] at hx
        rcases hx with rfl | hx
        · rfl
        · exact parse_string_result_trace_not_closing o parse o.putRet x hx

theorem handle_get_trace_not_closing (o : NativeOracle)
    (parse : String → Except String Json) (id : String) (br : Option String) :
    ∀ x ∈ (handle_get o parse id br).snd, x.isClosing = false := by
  cases h1 : cStringNew id with
  | error e => simp [handle_get, h1]
  | ok u1 =>
    cases h3 : optional_cstring br with
    | error e => simp [handle_get, h1, h3]
    | ok u3 =>
      cases hg : o.getRet with
      | none =>
        simp [handle_get, h1, h3, hg, NativeCall.isClosing, NativeCall.isCloseCall,
          NativeCall.isTearDown]
      | some s =>
        intro x hx
        simp only [handle_get, h1, h3, hg, List.mem_cons] at hx
        rcases hx with rfl | hx
        · rfl
        · exact parse_string_result_trace_not_closing o parse (some s) x hx

theorem handle_delete_trace_not_closing (o : NativeOracle)
    (id : String) (br : Option String) :
    ∀ x ∈ (handle_delete o id br).snd, x.isClosing = false := by
  cases h1 : cStringNew id with
  | error e => simp [handle_delete, h1]
  | ok u1 =>
    cases h3 : optional_cstring br with
    | error e => simp [handle_delete, h1, h3]
    | ok u3 =>
      by_cases hz : o.deleteRet = 0
      · simp [handle_delete, h1, h3, hz, NativeCall.isClosing, NativeCall.isCloseCall,
          NativeCall.isTearDown]
      · by_cases ho : o.deleteRet = 1
        · simp [handle_delete, h1, h3, hz, ho, NativeCall.isClosing,
            NativeCall.isCloseCall, NativeCall.isTearDown]
        · intro x hx
          simp only [handle_delete, h1, h3, hz, ho, if_false, List.mem_cons] at hx
          rcases hx with rfl | hx
          · rfl
          · exact get_last_error_trace_not_closing o x
              (by simpa [last_error_or] using hx)

theorem handle_list_by_prefix_trace_not_closing (o : NativeOracle)
    (parse : String → Except String Json) (p : String) (br : Option String) :
    ∀ x ∈ ( handle_list_by_prefix o parse p br).snd, x.isClosing = false := by
  cases h1 : cStringNew p with
  | error e => simp [ handle_list_by_prefix, h1]
  | ok u1 =>
    cases h3 : optional_cstring br with
    | error e => simp [ handle_list_by_prefix, h1, h3]
    | ok u3 =>
      cases hg : o.listPfxRet with
      | none =>
        simp [ handle_list_by_prefix, h1, h3, hg, NativeCall.isClosing,
          NativeCall.isCloseCall, NativeCall.isTearDown]
      | some s =>
        intro x hx
        simp only [ handle_list_by_prefix, h1, h3, hg, List.mem_cons] at hx
        rcases hx with rfl | hx
        · rfl
        · exact parse_string_result_trace_not_closing o parse (some s) x hx

theorem handle_list_by_table_trace_not_closing (o : NativeOracle)
    (parse : String → Except String Json) (t : String) (br : Option String) :
    ∀ x ∈ (handle_list_by_table o parse t br).snd, x.isClosing = false := by
  cases h1 : cStringNew t with
  | error e => simp [handle_list_by_table, h1]
  | ok u1 =>
    cases h3 : optional_cstring br with
    | error e => simp [handle_list_by_table, h1, h3]
    | ok u3 =>
      cases hg : o.listTableRet with
      | none =>
        simp [handle_list_by_table, h1, h3, hg, NativeCall.isClosing,
          NativeCall.isCloseCall, NativeCall.isTearDown]
      | some s =>
        intro x hx
        simp only [handle_list_by_table, h1, h3, hg, List.mem_cons] at hx
        rcases hx with rfl | hx
        · rfl
        · exact parse_string_result_trace_not_closing o parse (some s) x hx

theorem handle_history_trace_not_closing (o : NativeOracle)
    (parse : String → Except String Json) (id : String) (br : Option String) :
    ∀ x ∈ (handle_history o parse id br).snd, x.isClosing = false := by
  cases h1 : cStringNew id with
  | error e => simp [handle_history, h1]
  | ok u1 =>
    cases h3 : optional_cstring br with
    | error e => simp [handle_history, h1, h3]
    | ok u3 =>
      cases hg : o.historyRet with
      | none =>
        simp [handle_history, h1, h3, hg, NativeCall.isClosing, NativeCall.isCloseCall,
          NativeCall.isTearDown]
      | some s =>
        intro x hx
        simp only [handle_history, h1, h3, hg, List.mem_cons] at hx
        rcases hx with rfl | hx
        · rfl
        · exact parse_string_result_trace_not_closing o parse (some s) x hx

theorem handle_query_trace_not_closing (o : NativeOracle)
    (parse : String → Except String Json) (q : String) (br : Option String) :
    ∀ x ∈ (handle_query o parse q br).snd, x.isClosing = false := by
  cases h1 : cStringNew q with
  | error e => simp [handle_query, h1]
  | ok u1 =>
    cases h3 : optional_cstring br with
    | error e => simp [handle_query, h1, h3]
    | ok u3 =>
      cases hg : o.queryRet with
      | none =>
        intro x hx
        simp only [handle_query, h1, h3, hg, List.mem_cons] at hx
        rcases hx with rfl | hx
        · rfl
        · exact get_last_error_trace_not_closing o x (by simpa [last_error_or] using hx)
      | some s =>
        intro x hx
        simp only [handle_query, h1, h3, hg, List.mem_cons] at hx
        rcases hx with rfl | hx
        · rfl
        · exact parse_string_result_trace_not_closing o parse (some s) x hx

theorem run_worker_loop_trace_not_closing (o : NativeOracle)
    (parse : String → Except String Json) (cmds : List FfiCommand) :
    ∀ x ∈ run_worker_loop o parse cmds, x.isClosing = false := by
  induction cmds with
  | nil => simp [run_worker_loop]
  | cons c rest ih =>
    cases c with
    | put id doc br =>
      intro x hx
      simp only [run_worker_loop, List.mem_append] at hx
      rcases hx with h | h
      · exact handle_put_trace_not_closing o parse id doc br x h
      · exact ih x h
    | get id br =>
      intro x hx
      simp only [run_worker_loop, List.mem_append] at hx
      rcases hx with h | h
      · exact handle_get_trace_not_closing o parse id br x h
      · exact ih x h
    | delete id br =>
      intro x hx
      simp only [run_worker_loop, List.mem_append] at hx
      rcases hx with h | h
      · exact handle_delete_trace_not_closing o id br x h
      · exact ih x h
    | listByPfx p br =>
      intro x hx
      simp only [run_worker_loop, List.mem_append] at hx
      rcases hx with h | h
      · exact handle_list_by_prefix_trace_not_closing o parse p br x h
      · exact ih x h
    | listByTable t br =>
      intro x hx
      simp only [run_worker_loop, List.mem_append] at hx
      rcases hx with h | h
      · exact handle_list_by_table_trace_not_closing o parse t br x h
      · exact ih x h
    | history id br =>
      intro x hx
      simp only [run_worker_loop, List.mem_append] at hx
      rcases hx with h | h
      · exact handle_history_trace_not_closing o parse id br x h
      · exact ih x h
    | query q br =>
      intro x hx
      simp only [run_worker_loop, List.mem_append] at hx
      rcases hx with h | h
      · exact handle_query_trace_not_closing o parse q br x h
      · exact ih x h
    | lastError =>
      intro x hx
      simp only [run_worker_loop, List.mem_append] at hx
      rcases hx with h | h
      · exact get_last_error_trace_not_closing o x h
      · exact ih x h
    | shutdown => simp [run_worker_loop]

theorem close_trace_counts (s : FfiWorkerState) :
    List.countP (fun c => NativeCall.isTearDown c) (FfiWorkerState.close s).snd =
      (if s.threadNull then 0 else 1) ∧
    List.countP (fun c => NativeCall.isCloseCall c) (FfiWorkerState.close s).snd =
      (if 0 ≤ s.handle then 1 else 0) := by
  by_cases h1 : 0 ≤ s.handle <;> by_cases h2 : s.threadNull <;>
    simp [FfiWorkerState.close, h1, h2, List.countP_cons, NativeCall.isTearDown,
      NativeCall.isCloseCall]

/-- C6: FfiWorkerState::close is idempotent — after one invocation the
handle is invalidated and the pointers nulled, so a second invocation
performs no native call and leaves the state unchanged — and the worker
body (loop then close) performs the isolate teardown exactly once and the
chrondb_close call exactly once (when the handle was valid), the command
loop itself never issuing either. -/
theorem c6_close_idempotent_and_exactly_once :
    (∀ s : FfiWorkerState, FfiWorkerState.close (FfiWorkerState.close s).fst =
      ((FfiWorkerState.close s).fst, [])) ∧
    (∀ (o : NativeOracle) (parse : String → Except String Json)
      (s : FfiWorkerState) (cmds : List FfiCommand),
      List.countP (fun c => NativeCall.isTearDown c) (worker_body o parse s cmds).snd =
        (if s.threadNull then 0 else 1) ∧
      List.countP (fun c => NativeCall.isCloseCall c) (worker_body o parse s cmds).snd =
        (if 0 ≤ s.handle then 1 else 0)) := by
  constructor
  · intro s
    by_cases h1 : 0 ≤ s.handle <;> by_cases h2 : s.threadNull <;>
      simp [FfiWorkerState.close, h1, h2]
  · intro o parse s cmds
    have hloop := run_worker_loop_trace_not_closing o parse cmds
    have hz1 : List.countP (fun c => NativeCall.isTearDown c)
        (run_worker_loop o parse cmds) = 0 := by
      rw [List.countP_eq_zero]
      intro a ha
      have h := hloop a ha
      simp only [NativeCall.isClosing, Bool.or_eq_false_iff] at h
      simp [h.2]
    have hz2 : List.countP (fun c => NativeCall.isCloseCall c)
        (run_worker_loop o parse cmds) = 0 := by
      rw [List.countP_eq_zero]
      intro a ha
      have h := hloop a ha
      simp only [NativeCall.isClosing, Bool.or_eq_false_iff] at h
      simp [h.1]
    have hc := close_trace_counts s
    constructor
    · rw [worker_body, List.countP_append, hz1, hc.1]
      simp
    · rw [worker_body, List.countP_append, hz2, hc.2]
      simp

/-- C7: library provisioning and symbol loading are memoized per process:
whatever a first call of ensure_library_installed or get_library observed
and cached, any later call — even against a changed environment — returns
the same outcome with no provisioning or loading I/O at all; in
particular, once a call succeeded no later call can fail. -/
theorem c7_setup_memoized (env1 env2 : SetupEnv) (st : ProcessCells) :
    ensure_library_installed env2 (ensure_library_installed env1 st).snd.fst =
      ((ensure_library_installed env1 st).fst,
        (ensure_library_installed env1 st).snd.fst, []) ∧
    get_library env2 (get_library env1 st).snd.fst =
      ((get_library env1 st).fst, (get_library env1 st).snd.fst, []) := by
  obtain ⟨e1, d1, l1⟩ := env1
  obtain ⟨sr, lr⟩ := st
  cases sr with
  | some r =>
    cases r with
    | ok u =>
      cases u
      cases lr with
      | some r2 =>
        cases r2 with
        | ok lib => simp [ensure_library_installed, get_library]
        | error m => simp [ensure_library_installed, get_library]
      | none =>
        cases l1 with
        | ok lib => simp [ensure_library_installed, get_library]
        | error m => simp [ensure_library_installed, get_library]
    | error m => simp [ensure_library_installed, get_library]
  | none =>
    cases e1 with
    | true =>
      cases lr with
      | some r2 =>
        cases r2 with
        | ok lib => simp [ensure_library_installed, get_library]
        | error m => simp [ensure_library_installed, get_library]
      | none =>
        cases l1 with
        | ok lib => simp [ensure_library_installed, get_library]
        | error m => simp [ensure_library_installed, get_library]
    | false =>
      cases d1 with
      | ok u =>
        cases u
        cases lr with
        | some r2 =>
          cases r2 with
          | ok lib => simp [ensure_library_installed, get_library]
          | error m => simp [ensure_library_installed, get_library]
        | none =>
          cases l1 with
          | ok lib => simp [ensure_library_installed, get_library]
          | error m => simp [ensure_library_installed, get_library]
      | error m => simp [ensure_library_installed, get_library]

/-- C8 counterexample: when tar extraction fails after the temporary
extraction subdirectory was created, download_library returns early with
the wrapped error and never deletes the temporary subdirectory — refuting
the unconditional-cleanup claim at a concrete environment. -/
theorem c8_temp_cleanup_counterexample :
    (download_library envUnpackFails).fst =
      Except.error ("Failed to extract archive: boom") ∧
    DlEff.createTemp ∈ (download_library envUnpackFails).snd ∧
    DlEff.removeTemp ∉ (download_library envUnpackFails).snd := by
  decide

/-- C8 amended: download_library deletes the temporary subdirectory exactly
on the runs that complete the copy phase (including the run that then
fails the final artifact verification); failures at fetch, extraction,
directory reading or copying return early without the cleanup; and the
outcome never depends on whether the deletion itself succeeded. -/
theorem c8_temp_cleanup_on_copy_success (env : DlEnv) :
    download_library { env with removeOk := true } =
      download_library { env with removeOk := false } ∧
    (DlEff.removeTemp ∈ (download_library env).snd ↔
      (env.platform.isSome = true ∧ env.homeLibDir.isSome = true ∧
       env.fetch = Except.ok () ∧ env.mkTempDir = Except.ok () ∧
       env.unpack = Except.ok () ∧ env.readTempDir = Except.ok true ∧
       env.mkLibDir = Except.ok () ∧ env.copyFiles = Except.ok ())) := by
  obtain ⟨plat, home, fet, mkT, unp, rdT, mkL, cpy, rm, ex⟩ := env
  refine ⟨rfl, ?_⟩
  cases plat with
  | none => simp [download_library]
  | some pv =>
    cases home with
    | none => simp [download_library]
    | some hv =>
      cases fet with
      | error m => simp [download_library]
      | ok u =>
        cases u
        cases mkT with
        | error m => simp [download_library]
        | ok u2 =>
          cases u2
          cases unp with
          | error m => simp [download_library]
          | ok u3 =>
            cases u3
            cases rdT with
            | error m => simp [download_library]
            | ok b =>
              cases mkL with
              | error m => simp [download_library]
              | ok u4 =>
                cases u4
                cases b with
                | false => simp [download_library]
                | true =>
                  cases cpy with
                  | error m => simp [download_library]
                  | ok u5 =>
                    cases u5
                    cases ex <;> simp [download_library]

theorem registryLookup_filter_ne (reg : List ((String × String) × Nat))
    (K k : String × String) (h : k ≠ K) :
    registryLookup (reg.filter (fun e => ! decide (e.fst = K))) k =
      registryLookup reg k := by
  induction reg with
  | nil => rfl
  | cons e rest ih =>
    by_cases he : e.fst = K
    · have hKk : ¬ (K = k) := fun hh => h hh.symm
      simp [List.filter_cons, he, registryLookup, hKk, ih]
    · simp [List.filter_cons, he, registryLookup, ih]

theorem registryLookup_filter_self (reg : List ((String × String) × Nat))
    (K : String × String) :
    registryLookup (reg.filter (fun e => ! decide (e.fst = K))) K = none := by
  induction reg with
  | nil => rfl
  | cons e rest ih =>
    by_cases he : e.fst = K
    · simp [List.filter_cons, he, ih]
    · simp [List.filter_cons, he, registryLookup, ih]

theorem findWorker_some {st : BrokerState} {i : Nat} {x : Worker}
    (h : st.findWorker i = some x) : x ∈ st.workers ∧ x.wid = i := by
  unfold BrokerState.findWorker at h
  refine ⟨List.mem_of_find?_eq_some h, ?_⟩
  have h2 := List.find?_some h
  simpa using h2

theorem findWorker_self {st : BrokerState} {x : Worker}
    (hinj : ∀ w1 ∈ st.workers, ∀ w2 ∈ st.workers, w1.wid = w2.wid → w1 = w2)
    (hx : x ∈ st.workers) : st.findWorker x.wid = some x := by
  unfold BrokerState.findWorker
  cases h : st.workers.find? (fun w => w.wid == x.wid) with
  | none =>
    exfalso
    have h2 := List.find?_eq_none.mp h x hx
    simp at h2
  | some y =>
    have h3 := List.find?_some h
    have h4 := List.mem_of_find?_eq_some h
    have h5 : y.wid = x.wid := by simpa using h3
    rw [hinj y h4 x hx h5]

theorem isLive_of_mem {st : BrokerState} {x : Worker}
    (hinj : ∀ w1 ∈ st.workers, ∀ w2 ∈ st.workers, w1.wid = w2.wid → w1 = w2)
    (hpos : ∀ w ∈ st.workers, 0 < w.strong)
    (hx : x ∈ st.workers) : st.isLive x.wid = true := by
  unfold BrokerState.isLive
  rw [findWorker_self hinj hx]
  simpa using hpos x hx

theorem brokerInv_map (st : BrokerState) (h : BrokerInv st) (f : Worker → Worker)
    (hwid : ∀ w, (f w).wid = w.wid) (hkey : ∀ w, (f w).key = w.key)
    (hstrong : ∀ w ∈ st.workers, 0 < (f w).strong) :
    BrokerInv { st with workers := st.workers.map f } := by
  constructor
  · intro w hw
    obtain ⟨y, hy, rfl⟩ := List.mem_map.mp hw
    exact hstrong y hy
  · intro w hw
    obtain ⟨y, hy, rfl⟩ := List.mem_map.mp hw
    show registryLookup st.registry (f y).key = some (f y).wid
    rw [hwid, hkey]
    exact h.registered y hy
  · intro k v hkv
    obtain ⟨w, hw, hwv, hwk⟩ := h.backed k v hkv
    exact ⟨f w, List.mem_map_of_mem f hw, by rw [hwid]; exact hwv,
      by rw [hkey]; exact hwk⟩
  · intro w1 h1 w2 h2 he
    obtain ⟨y1, hy1, rfl⟩ := List.mem_map.mp h1
    obtain ⟨y2, hy2, rfl⟩ := List.mem_map.mp h2
    rw [hwid, hwid] at he
    rw [h.widInj y1 hy1 y2 hy2 he]
  · intro w hw
    obtain ⟨y, hy, rfl⟩ := List.mem_map.mp hw
    show (f y).wid < st.nextId
    rw [hwid]
    exact h.widBound y hy

theorem brokerInv_addStrong {st : BrokerState} (h : BrokerInv st) (w : Nat) :
    BrokerInv (st.addStrong w) := by
  unfold BrokerState.addStrong
  refine brokerInv_map st h _ ?_ ?_ ?_
  · intro x
    by_cases hx : x.wid = w <;> simp [hx]
  · intro x
    by_cases hx : x.wid = w <;> simp [hx]
  · intro x hx
    by_cases hxw : x.wid = w
    · simp [hxw]
    · simp [hxw]
      exact h.strongPos x hx

theorem brokerInv_register {st : BrokerState} (h : BrokerInv st) (key : String × String)
    (hnone : registryLookup st.registry key = none) :
    BrokerInv { registry := (key, st.nextId) :: st.registry,
                workers := { wid := st.nextId, key := key, strong := 1 } :: st.workers,
                nextId := st.nextId + 1 } := by
  constructor
  · intro w hw
    rcases List.mem_cons.mp hw with rfl | hw2
    · simp
    · exact h.strongPos w hw2
  · intro w hw
    rcases List.mem_cons.mp hw with rfl | hw2
    · simp [registryLookup]
    · have hk : ¬ (key = w.key) := by
        intro hk
        have h2 := h.registered w hw2
        rw [← hk] at h2
        rw [hnone] at h2
        cases h2
      show registryLookup ((key, st.nextId) :: st.registry) w.key = some w.wid
      simp only [registryLookup, hk, if_false]
      exact h.registered w hw2
  · intro k v hkv
    by_cases hkk : key = k
    · have hv : st.nextId = v := by
        simpa [registryLookup, hkk] using hkv
      refine ⟨{ wid := st.nextId, key := key, strong := 1 }, List.mem_cons_self _ _, hv, hkk⟩
    · have h2 : registryLookup st.registry k = some v := by
        simpa [registryLookup, hkk] using hkv
      obtain ⟨w, hw, hwv, hwk⟩ := h.backed k v h2
      exact ⟨w, List.mem_cons_of_mem _ hw, hwv, hwk⟩
  · intro w1 h1 w2 h2 he
    rcases List.mem_cons.mp h1 with rfl | h1b
    · rcases List.mem_cons.mp h2 with rfl | h2b
      · rfl
      · exfalso
        have := h.widBound w2 h2b
        simp only at he
        omega
    · rcases List.mem_cons.mp h2 with rfl | h2b
      · exfalso
        have := h.widBound w1 h1b
        simp only at he
        omega
      · exact h.widInj w1 h1b w2 h2b he
  · intro w hw
    rcases List.mem_cons.mp hw with rfl | hw2
    · simp
    · have h2 := h.widBound w hw2
      show w.wid < st.nextId + 1
      omega

theorem brokerInv_remove {st : BrokerState} (h : BrokerInv st) {x : Worker}
    (hx : x ∈ st.workers) :
    BrokerInv { registry := st.registry.filter (fun e => ! decide (e.fst = x.key)),
                workers := st.workers.filter (fun y => ! decide (y.wid = x.wid)),
                nextId := st.nextId } := by
  constructor
  · intro w hw
    exact h.strongPos w (List.mem_of_mem_filter hw)
  · intro w hw
    have hw2 := List.mem_of_mem_filter hw
    have hwx : ¬ (w.wid = x.wid) := by
      have h2 := List.of_mem_filter hw
      simpa using h2
    have hkey : w.key ≠ x.key := by
      intro hk
      have h1 := h.registered w hw2
      have h2 := h.registered x hx
      rw [hk] at h1
      rw [h2] at h1
      exact hwx (Option.some.inj h1).symm
    show registryLookup (st.registry.filter (fun e => ! decide (e.fst = x.key))) w.key =
      some w.wid
    rw [registryLookup_filter_ne _ _ _ hkey]
    exact h.registered w hw2
  · intro k v hkv
    have hk : k ≠ x.key := by
      intro hkk
      rw [hkk, registryLookup_filter_self] at hkv
      cases hkv
    rw [registryLookup_filter_ne _ _ _ hk] at hkv
    obtain ⟨w, hw, hwv, hwk⟩ := h.backed k v hkv
    have hne : ¬ (w.wid = x.wid) := by
      intro he
      have : w = x := h.widInj w hw x hx he
      rw [this] at hwk
      exact hk hwk.symm
    exact ⟨w, List.mem_filter.mpr ⟨hw, by simp [hne]⟩, hwv, hwk⟩
  · intro w1 h1 w2 h2 he
    exact h.widInj w1 (List.mem_of_mem_filter h1) w2 (List.mem_of_mem_filter h2) he
  · intro w hw
    exact h.widBound w (List.mem_of_mem_filter hw)

theorem brokerInv_openDB {st : BrokerState} (h : BrokerInv st) (env : OpenEnv)
    (canon : String → Option String) (d i : String) :
    BrokerInv (openDB env canon st d i).snd := by
  unfold openDB
  cases hreg : registryLookup st.registry
      (canonicalizePath canon d, canonicalizePath canon i) with
  | some w =>
    cases hl : st.isLive w with
    | true =>
      simp only [hreg, hl, if_true]
      exact brokerInv_addStrong h w
    | false =>
      exfalso
      obtain ⟨x, hx, hxw, hxk⟩ := h.backed _ w hreg
      have hlive := isLive_of_mem h.widInj h.strongPos hx
      rw [hxw] at hlive
      rw [hl] at hlive
      cases hlive
  | none =>
    simp only [hreg]
    cases hspawn : env.spawnOk with
    | false => simpa [hspawn] using h
    | true =>
      cases hinit : (init_worker env d i).fst with
      | error e => simpa [hspawn, hinit] using h
      | ok s0 =>
        simp only [hspawn, hinit, if_true]
        exact brokerInv_register h _ hreg

theorem brokerInv_drop {st : BrokerState} (h : BrokerInv st) (w : Nat) :
    BrokerInv (dropHandle st w) := by
  unfold dropHandle
  cases hf : st.findWorker w with
  | none => simpa [hf] using h
  | some x =>
    obtain ⟨hx, hxw⟩ := findWorker_some hf
    subst hxw
    by_cases hs : x.strong ≤ 1
    · simp only [hf, hs, if_true]
      exact brokerInv_remove h hx
    · simp only [hf, hs, if_false]
      refine brokerInv_map st h _ ?_ ?_ ?_
      · intro y
        by_cases hy : y.wid = x.wid <;> simp [hy]
      · intro y
        by_cases hy : y.wid = x.wid <;> simp [hy]
      · intro y hy
        by_cases hyw : y.wid = x.wid
        · have hyx : y = x := h.widInj y hy x hx hyw
          rw [hyx]
          simp
          omega
        · simp [hyw]
          exact h.strongPos y hy

theorem brokerInv_foldl (canon : String → Option String) (ops : List BrokerOp)
    (st : BrokerState) (h : BrokerInv st) :
    BrokerInv (ops.foldl (brokerStep canon) st) := by
  induction ops generalizing st with
  | nil => exact h
  | cons op rest ih =>
    rw [List.foldl_cons]
    apply ih
    cases op with
    | openOp env d i => exact brokerInv_openDB h env canon d i
    | dropOp w => exact brokerInv_drop h w

theorem brokerInv_initial : BrokerInv initialBroker := by
  constructor
  · intro w hw
    cases hw
  · intro w hw
    cases hw
  · intro k v hkv
    simp [initialBroker, registryLookup] at hkv
  · intro w1 h1 w2 h2 he
    cases h1
  · intro w hw
    cases hw

theorem brokerInv_replay (canon : String → Option String) (ops : List BrokerOp) :
    BrokerInv (replayBroker canon ops) :=
  brokerInv_foldl canon ops initialBroker brokerInv_initial

theorem openDB_reuse {st : BrokerState} (h : BrokerInv st) (env : OpenEnv)
    (canon : String → Option String) (d i : String) {x : Worker}
    (hx : x ∈ st.workers)
    (hk : x.key = (canonicalizePath canon d, canonicalizePath canon i)) :
    openDB env canon st d i = (Except.ok x.wid, st.addStrong x.wid) := by
  have hlook : registryLookup st.registry
      (canonicalizePath canon d, canonicalizePath canon i) = some x.wid := by
    rw [← hk]
    exact h.registered x hx
  have hlive : st.isLive x.wid = true := isLive_of_mem h.widInj h.strongPos hx
  simp [openDB, hlook, hlive]

/-- C1: along every sequence of open (acquire) and drop (release) events,
at most one live SharedWorker exists per canonicalized (data_path,
index_path) identity, and while a worker for an identity is alive any
further ChronDB::open whose paths canonicalize to the same pair returns a
handle backed by that same worker — the state change is exactly one more
strong reference: no new worker is created, the worker list and the
freshness counter are unchanged. -/
theorem c1_at_most_one_live_worker (canon : String → Option String) (ops : List BrokerOp) :
    (∀ w1 ∈ (replayBroker canon ops).workers, ∀ w2 ∈ (replayBroker canon ops).workers,
      w1.key = w2.key → w1 = w2) ∧
    (∀ (env : OpenEnv) (d i : String) (x : Worker),
      x ∈ (replayBroker canon ops).workers →
      x.key = (canonicalizePath canon d, canonicalizePath canon i) →
      openDB env canon (replayBroker canon ops) d i =
        (Except.ok x.wid, (replayBroker canon ops).addStrong x.wid) ∧
      ((replayBroker canon ops).addStrong x.wid).workers.length =
        (replayBroker canon ops).workers.length ∧
      ((replayBroker canon ops).addStrong x.wid).nextId =
        (replayBroker canon ops).nextId) := by
  have h := brokerInv_replay canon ops
  constructor
  · intro w1 h1 w2 h2 hk
    have e1 := h.registered w1 h1
    have e2 := h.registered w2 h2
    rw [hk] at e1
    rw [e2] at e1
    exact h.widInj w1 h1 w2 h2 (Option.some.inj e1).symm
  · intro env d i x hx hk
    refine ⟨openDB_reuse h env canon d i hx hk, ?_, rfl⟩
    simp [BrokerState.addStrong]

theorem c1_at_most_one_live_worker_witness :
    openDB envOk (fun _ => none)
      (replayBroker (fun _ => none) [BrokerOp.openOp envOk ("a") ("b")]) ("a") ("b") =
      (Except.ok 0,
        (replayBroker (fun _ => none) [BrokerOp.openOp envOk ("a") ("b")]).addStrong 0) :=
  ((c1_at_most_one_live_worker (fun _ => none)
      [BrokerOp.openOp envOk ("a") ("b")]).2 envOk ("a") ("b")
    { wid := 0, key := (("a"), ("b")), strong := 1 } (by decide) (by decide)).1

/-- C3: when chrondb_open returns a negative handle, worker startup returns
OpenFailed carrying the native last-error text (empty if none), having
fetched that text and torn down the freshly created isolate (the teardown
is the last native call); and a ChronDB::open that triggered this creation
returns the error synchronously with the registry left unchanged — the
failed worker is never registered. -/
theorem c3_open_failure_not_registered (env : OpenEnv) (canon : String → Option String)
    (st : BrokerState) (d i : String)
    (hlib : env.lib = Except.ok ()) (hiso : env.createIsolateRet = 0)
    (hd : hasNulByte d = false) (hi : hasNulByte i = false)
    (hneg : env.openRet < 0) (hspawn : env.spawnOk = true)
    (hnone : registryLookup st.registry
      (canonicalizePath canon d, canonicalizePath canon i) = none) :
    (init_worker env d i).fst =
      Except.error (ChronDBError.OpenFailed (env.lastErr.getD (""))) ∧
    NativeCall.callLastError ∈ (init_worker env d i).snd ∧
    (init_worker env d i).snd.getLast? = some NativeCall.tearDownIsolate ∧
    openDB env canon st d i =
      (Except.error (ChronDBError.OpenFailed (env.lastErr.getD (""))), st) := by
  have hfst : (init_worker env d i).fst =
      Except.error (ChronDBError.OpenFailed (env.lastErr.getD (""))) := by
    simp [init_worker, hlib, hiso, cStringNew_ok hd, cStringNew_ok hi, hneg]
  refine ⟨hfst, ?_, ?_, ?_⟩
  · cases hle : env.lastErr <;>
      simp [init_worker, hlib, hiso, cStringNew_ok hd, cStringNew_ok hi, hneg, hle]
  · cases hle : env.lastErr <;>
      simp [init_worker, hlib, hiso, cStringNew_ok hd, cStringNew_ok hi, hneg, hle]
  · simp [openDB, hnone, hspawn, hfst]

theorem c3_open_failure_not_registered_witness :
    openDB envOpenFails (fun _ => none) initialBroker ("a") ("b") =
      (Except.error (ChronDBError.OpenFailed ("storage locked")), initialBroker) := by
  have h := c3_open_failure_not_registered envOpenFails (fun _ => none) initialBroker
    ("a") ("b") rfl rfl (by decide) (by decide) (by decide) rfl (by decide)
  simpa [envOpenFails] using h.2.2.2
